import Mathlib

/-!
# HMCS400 core: fetch, second-word rule, opcode dispatch and the run loop

A shallow embedding of `src/devices/cpu/hmcs400/hmcs400.cpp` and `hmcs400.h`:
`fetch`, the three nested `switch` statements of `execute_run`, and the
`while (m_icount > 0)` loop.
-/

namespace HMCS400

/-! ## Opcode handlers (hmcs400.h, lines 72-165) -/

/-- The handler member functions declared in `hmcs400.h`, in declaration order. -/
inductive Handler where
  | op_illegal
  | op_lai | op_lbi | op_lmid | op_lmiiy
  | op_lab | op_lba | op_law | op_lay | op_laspx | op_laspy | op_lamr | op_xmra
  | op_lwi | op_lxi | op_lyi | op_lwa | op_lxa | op_lya | op_iy | op_dy | op_ayy | op_syy | op_xsp
  | op_lam | op_lbm | op_lma | op_lmaiy | op_lmady | op_xma | op_xmb
  | op_ai | op_ib | op_db | op_daa | op_das | op_nega | op_comb | op_rotr | op_rotl
  | op_sec | op_rec | op_tc | op_am | op_amc | op_smc | op_or | op_anm | op_orm | op_eorm
  | op_inem | op_anem | op_bnem | op_ynei | op_ilem | op_alem | op_blem | op_alei
  | op_sem | op_rem | op_tm
  | op_br | op_brl | op_jmpl | op_cal | op_call | op_tbr | op_rtn | op_rtni
  | op_sed | op_sedd | op_red | op_redd | op_td | op_tdd | op_lar | op_lbr | op_lra | op_lrb | op_p
  | op_sts | op_sby | op_stop
  deriving DecidableEq, Repr

/-! ## Dispatcher (hmcs400.cpp, lines 246-360) -/

/-- Case labels of `switch (m_op & 0x3f0)` (lines 249-276), in source order. -/
def tier1 : List (Nat × Handler) :=
  [ (0x1c0, .op_cal), (0x1d0, .op_cal), (0x1e0, .op_cal), (0x1f0, .op_cal),
    (0x020, .op_inem), (0x120, .op_inem),
    (0x030, .op_ilem), (0x130, .op_ilem),
    (0x070, .op_ynei),
    (0x0b0, .op_tbr),
    (0x150, .op_jmpl),
    (0x160, .op_call),
    (0x170, .op_brl),
    (0x1a0, .op_lmid),
    (0x1b0, .op_p),
    (0x200, .op_lbi),
    (0x210, .op_lyi),
    (0x220, .op_lxi),
    (0x230, .op_lai),
    (0x240, .op_lbr),
    (0x250, .op_lar),
    (0x260, .op_redd),
    (0x270, .op_lamr),
    (0x280, .op_ai),
    (0x290, .op_lmiiy),
    (0x2a0, .op_tdd),
    (0x2b0, .op_alei),
    (0x2c0, .op_lrb),
    (0x2d0, .op_lra),
    (0x2e0, .op_sedd),
    (0x2f0, .op_xmra) ]

/-- Case labels of `switch (m_op & 0x3fc)` (lines 286-296), in source order. -/
def tier2 : List (Nat × Handler) :=
  [ (0x084, .op_sem), (0x184, .op_sem),
    (0x088, .op_rem), (0x188, .op_rem),
    (0x08c, .op_tm), (0x18c, .op_tm),
    (0x000, .op_xsp),
    (0x040, .op_lbm),
    (0x080, .op_xma),
    (0x090, .op_lam),
    (0x094, .op_lma),
    (0x0c0, .op_xmb),
    (0x0f0, .op_lwi) ]

/-- Case labels of `switch (m_op)` (lines 301-351), in source order. -/
def tier3 : List (Nat × Handler) :=
  [ (0x004, .op_anem), (0x104, .op_anem),
    (0x008, .op_am), (0x108, .op_am),
    (0x00c, .op_orm), (0x10c, .op_orm),
    (0x014, .op_alem), (0x114, .op_alem),
    (0x018, .op_amc), (0x118, .op_amc),
    (0x01c, .op_eorm), (0x11c, .op_eorm),
    (0x098, .op_smc), (0x198, .op_smc),
    (0x09c, .op_anm), (0x19c, .op_anm),
    (0x010, .op_rtn),
    (0x011, .op_rtni),
    (0x044, .op_bnem),
    (0x048, .op_lab),
    (0x04c, .op_ib),
    (0x050, .op_lmaiy), (0x051, .op_lmaiy),
    (0x054, .op_ayy),
    (0x058, .op_laspy),
    (0x05c, .op_iy),
    (0x060, .op_nega),
    (0x064, .op_red),
    (0x068, .op_laspx),
    (0x06f, .op_tc),
    (0x0a0, .op_rotr),
    (0x0a1, .op_rotl),
    (0x0a6, .op_daa),
    (0x0aa, .op_das),
    (0x0af, .op_lay),
    (0x0c4, .op_blem),
    (0x0c8, .op_lba),
    (0x0cf, .op_db),
    (0x0d0, .op_lmady), (0x0d1, .op_lmady),
    (0x0d4, .op_syy),
    (0x0d8, .op_lya),
    (0x0df, .op_dy),
    (0x0e0, .op_td),
    (0x0e4, .op_sed),
    (0x0e8, .op_lxa),
    (0x0ec, .op_rec),
    (0x0ef, .op_sec),
    (0x100, .op_law),
    (0x110, .op_lwa),
    (0x140, .op_comb),
    (0x144, .op_or),
    (0x148, .op_sts),
    (0x14c, .op_sby),
    (0x14d, .op_stop),
    (0x180, .op_xma),
    (0x190, .op_lam),
    (0x194, .op_lma) ]

/-- A `switch` over a table of case labels: the handler of the label equal to
the scrutinee, `none` when control reaches `default`. -/
def switchOn : List (Nat × Handler) → Nat → Option Handler
  | [], _ => none
  | (label, h) :: rest, v => if v = label then some h else switchOn rest v

/-- The handler that the nested switches of `execute_run` invoke for `m_op`. -/
def dispatch (m_op : Nat) : Handler :=
  match switchOn tier1 (m_op &&& 0x3f0) with
  | some h => h
  | none =>
    if m_op &&& 0x300 = 0x300 then .op_br
    else
      match switchOn tier2 (m_op &&& 0x3fc) with
      | some h => h
      | none =>
        match switchOn tier3 m_op with
        | some h => h
        | none => .op_illegal

/-! ## Machine state -/

/-- Modelled from the spec: the register file of section 3 (accumulator,
secondary register, working register, index registers X and Y, stack pointer,
carry flag). The class in `hmcs400.h` declares no register members; their
handlers live in a source file that is not part of this development. -/
structure Registers where
  a : Nat
  b : Nat
  w : Nat
  x : Nat
  y : Nat
  sp : Nat
  c : Nat
  deriving DecidableEq, Repr

/-- The mutable state of `hmcs400_cpu_device`: the members `m_pc`, `m_prev_pc`,
`m_op`, `m_param` (all `u16`) and `m_icount` (`int`) of `hmcs400.h`, the
contents of the data space behind `m_data`, and the register file.
`m_icount` is only ever decremented, by `fetch`, which the loop calls from
non-negative budgets, so it is an `Int` without wrap-around here. -/
structure State where
  m_pc : Nat
  m_prev_pc : Nat
  m_op : Nat
  m_param : Nat
  m_icount : Int
  data : Nat → Nat
  regs : Registers

/-- The program space behind `m_program`: address to stored word. -/
abbrev Program := Nat → Nat

/-- The bodies of the opcode handlers, as state transformers. -/
abbrev Handlers := Handler → State → State

/-! ## Fetch (hmcs400.cpp, lines 222-229) -/

/-- Word read `m_program->read_word(addr)`, a `u16`. -/
def read_word (prog : Program) (addr : Nat) : Nat :=
  prog addr % 65536

/-- The member function `fetch`: result and state afterwards.
```
u16 data = m_program->read_word(m_pc);
m_pc = (m_pc + 1) & 0x3fff;
m_icount--;
return data & 0x3ff;
``` -/
def fetch (prog : Program) (s : State) : Nat × State :=
  let data := read_word prog s.m_pc
  (data &&& 0x3ff,
   { s with m_pc := ((s.m_pc + 1) &&& 0x3fff) % 65536, m_icount := s.m_icount - 1 })

/-! ## Loop body and loop (hmcs400.cpp, lines 231-362) -/

/-- The test of line 241, `(m_op >= 0x100 && m_op < 0x140) || (m_op >= 0x150 && m_op < 0x1b0)`. -/
def two_word (m_op : Nat) : Bool :=
  (decide (m_op ≥ 0x100) && decide (m_op < 0x140)) ||
  (decide (m_op ≥ 0x150) && decide (m_op < 0x1b0))

/-- Lines 236-244: record `m_prev_pc`, fetch `m_op`, then fetch or clear `m_param`. -/
def fetch_phase (prog : Program) (s : State) : State :=
  let s0 := { s with m_prev_pc := s.m_pc }
  let r1 := fetch prog s0
  let s1 := { r1.2 with m_op := r1.1 }
  if two_word s1.m_op then
    let r2 := fetch prog s1
    { r2.2 with m_param := r2.1 }
  else
    { s1 with m_param := 0 }

/-- The nested switches of lines 247-360 evaluated in state `s`: they read the
member `m_op` and nothing else. -/
def decode (s : State) : Handler :=
  dispatch s.m_op

/-- One pass through the body of the `while` loop: the fetch phase, then the
handler chosen by the switches. -/
def iteration (H : Handlers) (prog : Program) (s : State) : State :=
  let s1 := fetch_phase prog s
  H (decode s1) s1

/-- The handler that one pass through the loop body invokes from state `s`. -/
def selected (prog : Program) (s : State) : Handler :=
  decode (fetch_phase prog s)

/-- The loop `while (m_icount > 0) { ... }` of `execute_run`, run for at most
`fuel` passes: the final state and the handlers invoked, in order; `none` when
the loop is still running after `fuel` passes. -/
def execute_run (H : Handlers) (prog : Program) : Nat → State → Option (State × List Handler)
  | 0, s => if s.m_icount > 0 then none else some (s, [])
  | fuel + 1, s =>
    if s.m_icount > 0 then
      (execute_run H prog fuel (iteration H prog s)).map
        (fun r => (r.1, selected prog s :: r.2))
    else some (s, [])

/-! ## Handler bodies used by the scenario and frame properties -/

/-- Modelled from the spec: the body of `op_illegal`, whose source file is not
part of this development. Section 4.3, Illegal Opcode: "performs no state
change". -/
def op_illegal (s : State) : State := s

/-- Modelled from the spec: the body of `op_lai`, whose source file is not part
of this development. Section 4.3, Immediate Load: "load a register or an index
register with a 4-bit literal encoded in the opcode's low bits"; section 8
names the register of this one: "load accumulator immediate". -/
def op_lai (s : State) : State :=
  { s with regs := { s.regs with a := s.m_op &&& 0xf } }

/-- Modelled from the spec: the body of `op_lbr`, the handler the switches
select for `0x244`, whose source file is not part of this development.
Section 8 describes the word `0x0244` as "branch if accumulator non-zero"; the
spec gives no branch target, which is the parameter `target`. -/
def op_lbr (target : State → Nat) (s : State) : State :=
  if s.regs.a ≠ 0 then { s with m_pc := target s } else s

/-- A handler table with the three bodies above and `rest` everywhere else. -/
def specHandlers (target : State → Nat) (rest : Handlers) : Handlers
  | .op_illegal => op_illegal
  | .op_lai => op_lai
  | .op_lbr => op_lbr target
  | h => rest h

/-! ## Tier order -/

/-- The three tiers of the dispatcher: the `m_op & 0x3f0` switch together with
the `(m_op & 0x300) == 0x300` test of its `default`, the `m_op & 0x3fc` switch,
and the exact-value switch. -/
inductive Tier where
  | classes
  | bits
  | exact
  deriving DecidableEq, Repr

/-- What tier `t` alone decides for `m_op`: the handler of its matching entry,
`none` when no entry of the tier matches. -/
def tierMatch : Tier → Nat → Option Handler
  | .classes, m_op =>
    match switchOn tier1 (m_op &&& 0x3f0) with
    | some h => some h
    | none => if m_op &&& 0x300 = 0x300 then some .op_br else none
  | .bits, m_op => switchOn tier2 (m_op &&& 0x3fc)
  | .exact, m_op => switchOn tier3 m_op

/-- Dispatch that consults the tiers in the given order and falls back to
`op_illegal` when none matches. -/
def dispatch_in_order : List Tier → Nat → Handler
  | [], _ => .op_illegal
  | t :: ts, m_op =>
    match tierMatch t m_op with
    | some h => h
    | none => dispatch_in_order ts m_op

/-- The six orders in which three tiers can be consulted. -/
def tierOrders : List (List Tier) :=
  [ [.classes, .bits, .exact], [.classes, .exact, .bits],
    [.bits, .classes, .exact], [.bits, .exact, .classes],
    [.exact, .classes, .bits], [.exact, .bits, .classes] ]

/-- The state after `device_start` and `device_reset` (lines 161-164, 184:
`m_pc`, `m_prev_pc`, `m_op`, `m_param` zero) with budget `n`. -/
def startState (n : Int) (data : Nat → Nat) (regs : Registers) : State :=
  { m_pc := 0, m_prev_pc := 0, m_op := 0, m_param := 0, m_icount := n, data := data, regs := regs }

/-- The program store of the end-to-end scenario: `0x0230` at address 0,
`0x0244` at address 1, `fill` elsewhere. -/
def scenarioProgram (fill : Nat → Nat) : Program :=
  fun addr => if addr = 0 then 0x0230 else if addr = 1 then 0x0244 else fill addr

/-- The opcode word that the fetch phase reads from state `s`. -/
def opcode_at (prog : Program) (s : State) : Nat :=
  read_word prog s.m_pc &&& 0x3ff

/-! ## Representative opcodes -/

/-- Every handler declared in `hmcs400.h` (lines 73-165), in declaration order. -/
def allHandlers : List Handler :=
  [ Handler.op_illegal, Handler.op_lai, Handler.op_lbi, Handler.op_lmid, Handler.op_lmiiy,
    Handler.op_lab, Handler.op_lba, Handler.op_law, Handler.op_lay, Handler.op_laspx,
    Handler.op_laspy, Handler.op_lamr, Handler.op_xmra, Handler.op_lwi, Handler.op_lxi,
    Handler.op_lyi, Handler.op_lwa, Handler.op_lxa, Handler.op_lya, Handler.op_iy,
    Handler.op_dy, Handler.op_ayy, Handler.op_syy, Handler.op_xsp, Handler.op_lam,
    Handler.op_lbm, Handler.op_lma, Handler.op_lmaiy, Handler.op_lmady, Handler.op_xma,
    Handler.op_xmb, Handler.op_ai, Handler.op_ib, Handler.op_db, Handler.op_daa,
    Handler.op_das, Handler.op_nega, Handler.op_comb, Handler.op_rotr, Handler.op_rotl,
    Handler.op_sec, Handler.op_rec, Handler.op_tc, Handler.op_am, Handler.op_amc,
    Handler.op_smc, Handler.op_or, Handler.op_anm, Handler.op_orm, Handler.op_eorm,
    Handler.op_inem, Handler.op_anem, Handler.op_bnem, Handler.op_ynei, Handler.op_ilem,
    Handler.op_alem, Handler.op_blem, Handler.op_alei, Handler.op_sem, Handler.op_rem,
    Handler.op_tm, Handler.op_br, Handler.op_brl, Handler.op_jmpl, Handler.op_cal,
    Handler.op_call, Handler.op_tbr, Handler.op_rtn, Handler.op_rtni, Handler.op_sed,
    Handler.op_sedd, Handler.op_red, Handler.op_redd, Handler.op_td, Handler.op_tdd,
    Handler.op_lar, Handler.op_lbr, Handler.op_lra, Handler.op_lrb, Handler.op_p,
    Handler.op_sts, Handler.op_sby, Handler.op_stop ]

/-- For each handler, one opcode word whose case label names it in the
switches of `execute_run` (`0x300` for the `op_br` test, `0x101` for the final
`default`). -/
def representative : Handler → Nat
  | .op_illegal => 0x101
  | .op_lai => 0x230
  | .op_lbi => 0x200
  | .op_lmid => 0x1a0
  | .op_lmiiy => 0x290
  | .op_lab => 0x048
  | .op_lba => 0x0c8
  | .op_law => 0x100
  | .op_lay => 0x0af
  | .op_laspx => 0x068
  | .op_laspy => 0x058
  | .op_lamr => 0x270
  | .op_xmra => 0x2f0
  | .op_lwi => 0x0f0
  | .op_lxi => 0x220
  | .op_lyi => 0x210
  | .op_lwa => 0x110
  | .op_lxa => 0x0e8
  | .op_lya => 0x0d8
  | .op_iy => 0x05c
  | .op_dy => 0x0df
  | .op_ayy => 0x054
  | .op_syy => 0x0d4
  | .op_xsp => 0x000
  | .op_lam => 0x090
  | .op_lbm => 0x040
  | .op_lma => 0x094
  | .op_lmaiy => 0x050
  | .op_lmady => 0x0d0
  | .op_xma => 0x080
  | .op_xmb => 0x0c0
  | .op_ai => 0x280
  | .op_ib => 0x04c
  | .op_db => 0x0cf
  | .op_daa => 0x0a6
  | .op_das => 0x0aa
  | .op_nega => 0x060
  | .op_comb => 0x140
  | .op_rotr => 0x0a0
  | .op_rotl => 0x0a1
  | .op_sec => 0x0ef
  | .op_rec => 0x0ec
  | .op_tc => 0x06f
  | .op_am => 0x008
  | .op_amc => 0x018
  | .op_smc => 0x098
  | .op_or => 0x144
  | .op_anm => 0x09c
  | .op_orm => 0x00c
  | .op_eorm => 0x01c
  | .op_inem => 0x020
  | .op_anem => 0x004
  | .op_bnem => 0x044
  | .op_ynei => 0x070
  | .op_ilem => 0x030
  | .op_alem => 0x014
  | .op_blem => 0x0c4
  | .op_alei => 0x2b0
  | .op_sem => 0x084
  | .op_rem => 0x088
  | .op_tm => 0x08c
  | .op_br => 0x300
  | .op_brl => 0x170
  | .op_jmpl => 0x150
  | .op_cal => 0x1c0
  | .op_call => 0x160
  | .op_tbr => 0x0b0
  | .op_rtn => 0x010
  | .op_rtni => 0x011
  | .op_sed => 0x0e4
  | .op_sedd => 0x2e0
  | .op_red => 0x064
  | .op_redd => 0x260
  | .op_td => 0x0e0
  | .op_tdd => 0x2a0
  | .op_lar => 0x250
  | .op_lbr => 0x240
  | .op_lra => 0x2d0
  | .op_lrb => 0x2c0
  | .op_p => 0x1b0
  | .op_sts => 0x148
  | .op_sby => 0x14c
  | .op_stop => 0x14d

/-! ## Variant configuration (hmcs400.cpp, lines 35-148 and 203-207; hmcs400.h, lines 22-36 and 58-61) -/

/-- The configuration members of `hmcs400_cpu_device`: `m_rom_size` and
`m_ram_size` (`u32`), `m_has_div` (`bool`) and `m_divider` (`u8`). -/
structure Variant where
  m_rom_size : Nat
  m_ram_size : Nat
  m_has_div : Bool
  m_divider : Nat
  deriving DecidableEq, Repr

/-- The base-class constructor (lines 64-72): stores the two sizes, clears
`m_has_div` and sets `m_divider` to 8. -/
def hmcs400_cpu_device (rom_size ram_size : Nat) : Variant :=
  { m_rom_size := rom_size % 2 ^ 32, m_ram_size := ram_size % 2 ^ 32,
    m_has_div := false, m_divider := 8 }

/-- The constructor of lines 77-79. -/
def hmcs402_cpu_device : Variant :=
  hmcs400_cpu_device 0x800 96

/-- The constructor of lines 101-103. -/
def hmcs404_cpu_device : Variant :=
  hmcs400_cpu_device 0x1000 192

/-- The constructor of lines 125-129, whose body sets `m_has_div`. -/
def hmcs408_cpu_device : Variant :=
  { hmcs400_cpu_device 0x2000 448 with m_has_div := true }

/-- The three variant families. -/
inductive Family where
  | hmcs402
  | hmcs404
  | hmcs408
  deriving DecidableEq, Repr

/-- The device types defined in lines 36-57. -/
inductive Device where
  | hd614022 | hd614023 | hd614025 | hd614026 | hd614028 | hd614029
  | hd614042 | hd614043 | hd614045 | hd614046 | hd614048 | hd614049
  | hd614080 | hd614081 | hd614085 | hd614086 | hd614088 | hd614089
  deriving DecidableEq, Repr

/-- The family class each device class derives from (lines 81-148). -/
def Device.family : Device → Family
  | .hd614022 | .hd614023 | .hd614025 | .hd614026 | .hd614028 | .hd614029 => .hmcs402
  | .hd614042 | .hd614043 | .hd614045 | .hd614046 | .hd614048 | .hd614049 => .hmcs404
  | .hd614080 | .hd614081 | .hd614085 | .hd614086 | .hd614088 | .hd614089 => .hmcs408

/-- The configuration a family constructor leaves. -/
def Family.construct : Family → Variant
  | .hmcs402 => hmcs402_cpu_device
  | .hmcs404 => hmcs404_cpu_device
  | .hmcs408 => hmcs408_cpu_device

/-- The configuration a device constructor leaves: that of its family. -/
def Device.construct (d : Device) : Variant :=
  d.family.construct

/-- The RAM size in the family comments of lines 35, 43 and 51
(`160x4`, `256x4`, `512x4`). -/
def Family.documented_ram : Family → Nat
  | .hmcs402 => 160
  | .hmcs404 => 256
  | .hmcs408 => 512

/-- The configuration helper of `hmcs400.h` line 24,
`assert(m_has_div); m_divider = div;` with `div` a `u8`: `none` when the
assertion fails. -/
def set_divider (div : Nat) (v : Variant) : Option Variant :=
  if v.m_has_div then some { v with m_divider := div % 256 } else none

/-- The address ranges `data_map` (lines 203-207) populates, each as
(first address, last address); the first end is computed in `u32`. -/
def data_map (v : Variant) : List (Nat × Nat) :=
  [ (0x020, (0x020 + v.m_ram_size + (2 ^ 32 - 1)) % 2 ^ 32),
    (0x3c0, 0x3ff) ]

/-- The address width of `m_data_config` (line 67): 10 bits. -/
def data_space_size : Nat := 2 ^ 10

/-- `execute_clocks_to_cycles` (`hmcs400.h` line 35),
`(clocks + m_divider - 1) / m_divider` in `u64`; `none` for the division by
zero. -/
def execute_clocks_to_cycles (v : Variant) (clocks : Nat) : Option Nat :=
  if v.m_divider = 0 then none
  else some ((((clocks + v.m_divider) % 2 ^ 64 + (2 ^ 64 - 1)) % 2 ^ 64) / v.m_divider)

/-- `execute_cycles_to_clocks` (`hmcs400.h` line 36), `cycles * m_divider` in `u64`. -/
def execute_cycles_to_clocks (v : Variant) (cycles : Nat) : Nat :=
  (cycles * v.m_divider) % 2 ^ 64

/-! ## Basic facts about `fetch` and the fetch phase -/

theorem mask10_eq_mod (x : Nat) : x &&& 0x3ff = x % 1024 :=
  Nat.and_pow_two_sub_one_eq_mod x 10

theorem mask14_eq_mod (x : Nat) : x &&& 0x3fff = x % 16384 :=
  Nat.and_pow_two_sub_one_eq_mod x 14

theorem fetch_result (prog : Program) (s : State) :
    (fetch prog s).1 = read_word prog s.m_pc &&& 0x3ff := rfl

theorem fetch_pc (prog : Program) (s : State) :
    (fetch prog s).2.m_pc = (s.m_pc + 1) % 16384 := by
  show ((s.m_pc + 1) &&& 0x3fff) % 65536 = (s.m_pc + 1) % 16384
  rw [mask14_eq_mod]
  omega

theorem fetch_icount (prog : Program) (s : State) :
    (fetch prog s).2.m_icount = s.m_icount - 1 := rfl

theorem fetch_lt (prog : Program) (s : State) : (fetch prog s).1 < 1024 := by
  rw [fetch_result, mask10_eq_mod]
  omega

theorem opcode_at_lt (prog : Program) (s : State) : opcode_at prog s < 1024 := by
  unfold opcode_at
  rw [mask10_eq_mod]
  omega

theorem fetch_phase_op (prog : Program) (s : State) :
    (fetch_phase prog s).m_op = opcode_at prog s := by
  unfold fetch_phase
  dsimp only
  split <;> rfl

theorem fetch_phase_one (prog : Program) (s : State)
    (h : two_word (opcode_at prog s) = false) :
    fetch_phase prog s =
      { s with
        m_pc := ((s.m_pc + 1) &&& 0x3fff) % 65536
        m_prev_pc := s.m_pc
        m_op := opcode_at prog s
        m_param := 0
        m_icount := s.m_icount - 1 } := by
  unfold fetch_phase
  have h0 : two_word (fetch prog { s with m_prev_pc := s.m_pc }).1 = false := h
  simp only [h0]
  rfl

theorem fetch_phase_two (prog : Program) (s : State)
    (h : two_word (opcode_at prog s) = true) :
    fetch_phase prog s =
      { s with
        m_pc := ((((s.m_pc + 1) &&& 0x3fff) % 65536 + 1) &&& 0x3fff) % 65536
        m_prev_pc := s.m_pc
        m_op := opcode_at prog s
        m_param := read_word prog (((s.m_pc + 1) &&& 0x3fff) % 65536) &&& 0x3ff
        m_icount := s.m_icount - 1 - 1 } := by
  unfold fetch_phase
  have h0 : two_word (fetch prog { s with m_prev_pc := s.m_pc }).1 = true := h
  simp only [h0]
  rfl

/-! ## Fetch -/

/-- C1. Fetch postcondition: for every program counter value (in particular
every value in 0..16383), every budget and every program store, `fetch` returns
the stored word at `m_pc` masked to its low 10 bits, so the result is below
1024 and its bits 10 and up are zero; afterwards `m_pc` is `(pc + 1) mod 16384`
(from `0x3fff` it is 0) and `m_icount` is one less. -/
theorem fetch_postcondition (prog : Program) (s : State) :
    (fetch prog s).1 = read_word prog s.m_pc &&& 0x3ff ∧
    (fetch prog s).1 = prog s.m_pc % 1024 ∧
    (fetch prog s).1 < 1024 ∧
    (fetch prog s).1 >>> 10 = 0 ∧
    (fetch prog s).2.m_pc = (s.m_pc + 1) % 16384 ∧
    (fetch prog { s with m_pc := 0x3fff }).2.m_pc = 0 ∧
    (fetch prog s).2.m_icount = s.m_icount - 1 := by
  have hlt := fetch_lt prog s
  refine ⟨rfl, ?_, hlt, ?_, fetch_pc prog s, ?_, rfl⟩
  · rw [fetch_result, mask10_eq_mod, read_word]
    omega
  · rw [Nat.shiftRight_eq_div_pow]
    exact Nat.div_eq_of_lt hlt
  · rw [fetch_pc]
    show (0x3fff + 1) % 16384 = 0
    decide

/-! ## Dispatcher -/

/-- C2. The dispatcher is a total, pure function of the opcode: every opcode
value has exactly one selected handler, no switch has two case labels with the
same value, and the handler selected in a state does not change when the
program counter, previous program counter, second word, budget, data store or
registers are replaced while `m_op` is kept. -/
theorem dispatch_total_pure :
    (∀ op : Nat, ∃! h : Handler, dispatch op = h) ∧
    (tier1.map Prod.fst).Nodup ∧ (tier2.map Prod.fst).Nodup ∧ (tier3.map Prod.fst).Nodup ∧
    (∀ (s : State) (pc prev param : Nat) (n : Int) (data : Nat → Nat) (regs : Registers),
      decode { m_pc := pc, m_prev_pc := prev, m_op := s.m_op, m_param := param,
               m_icount := n, data := data, regs := regs } = decode s) := by
  refine ⟨fun op => ⟨dispatch op, rfl, fun y hy => hy.symm⟩, by decide, by decide, by decide, ?_⟩
  intro s pc prev param n data regs
  rfl

/-- C3. Second-word rule: the fetch phase of one loop pass reads an opcode
below 1024; it calls `fetch` a second time exactly when
`0x100 <= op < 0x140` or `0x150 <= op < 0x1b0`, and then `m_param` is the next
program word masked to 10 bits and two words (two budget units) are consumed;
otherwise `m_param` is 0 and one word is consumed. Never more than two. -/
theorem second_word_rule (prog : Program) (s : State) :
    opcode_at prog s < 1024 ∧
    (fetch_phase prog s).m_op = opcode_at prog s ∧
    (fetch_phase prog s).m_prev_pc = s.m_pc ∧
    (((0x100 ≤ opcode_at prog s ∧ opcode_at prog s < 0x140) ∨
      (0x150 ≤ opcode_at prog s ∧ opcode_at prog s < 0x1b0)) →
      fetch_phase prog s =
        { (fetch prog (fetch prog s).2).2 with
          m_prev_pc := s.m_pc
          m_op := opcode_at prog s
          m_param := (fetch prog (fetch prog s).2).1 } ∧
      (fetch_phase prog s).m_param = read_word prog ((s.m_pc + 1) % 16384) &&& 0x3ff ∧
      (fetch_phase prog s).m_pc = (s.m_pc + 2) % 16384 ∧
      (fetch_phase prog s).m_icount = s.m_icount - 2) ∧
    (¬ ((0x100 ≤ opcode_at prog s ∧ opcode_at prog s < 0x140) ∨
        (0x150 ≤ opcode_at prog s ∧ opcode_at prog s < 0x1b0)) →
      fetch_phase prog s =
        { (fetch prog s).2 with
          m_prev_pc := s.m_pc
          m_op := opcode_at prog s
          m_param := 0 } ∧
      (fetch_phase prog s).m_param = 0 ∧
      (fetch_phase prog s).m_pc = (s.m_pc + 1) % 16384 ∧
      (fetch_phase prog s).m_icount = s.m_icount - 1) ∧
    s.m_icount - 2 ≤ (fetch_phase prog s).m_icount := by
  have hpc1 : ((s.m_pc + 1) &&& 0x3fff) % 65536 = (s.m_pc + 1) % 16384 := by
    rw [mask14_eq_mod]; omega
  have hpc2 : ((((s.m_pc + 1) &&& 0x3fff) % 65536 + 1) &&& 0x3fff) % 65536
      = (s.m_pc + 2) % 16384 := by
    rw [hpc1, mask14_eq_mod]; omega
  have hrange : two_word (opcode_at prog s) = true ↔
      ((0x100 ≤ opcode_at prog s ∧ opcode_at prog s < 0x140) ∨
       (0x150 ≤ opcode_at prog s ∧ opcode_at prog s < 0x1b0)) := by
    simp [two_word]
  refine ⟨opcode_at_lt prog s, fetch_phase_op prog s, ?_, ?_, ?_, ?_⟩
  · unfold fetch_phase
    dsimp only
    split <;> rfl
  · intro h
    have h2 := fetch_phase_two prog s (hrange.mpr h)
    refine ⟨h2, ?_, ?_, ?_⟩
    · rw [h2, ← hpc1]
    · rw [h2]; exact hpc2
    · rw [h2]; show s.m_icount - 1 - 1 = s.m_icount - 2; omega
  · intro h
    have hf : two_word (opcode_at prog s) = false := by
      cases hb : two_word (opcode_at prog s)
      · rfl
      · exact absurd (hrange.mp hb) h
    have h1 := fetch_phase_one prog s hf
    refine ⟨h1, ?_, ?_, ?_⟩
    · rw [h1]
    · rw [h1]; exact hpc1
    · rw [h1]
  · cases hb : two_word (opcode_at prog s)
    · rw [fetch_phase_one prog s hb]
      show s.m_icount - 2 ≤ s.m_icount - 1
      omega
    · rw [fetch_phase_two prog s hb]
      show s.m_icount - 2 ≤ s.m_icount - 1 - 1
      omega

theorem switchOn_eq_none (tbl : List (Nat × Handler)) (v : Nat) :
    switchOn tbl v = none ↔ ∀ e ∈ tbl, e.1 ≠ v := by
  induction tbl with
  | nil => simp [switchOn]
  | cons e rest ih =>
    obtain ⟨label, h⟩ := e
    simp only [switchOn, List.mem_cons, forall_eq_or_imp]
    by_cases hv : v = label
    · simp [hv]
    · simp only [hv, if_false, ih]
      constructor
      · intro hr
        exact ⟨fun h' => hv h'.symm, hr⟩
      · intro hr
        exact hr.2

set_option maxRecDepth 100000 in
/-- C4. Short-branch class: for every opcode below 1024 the dispatcher selects
`op_br` exactly when `(op & 0x300) = 0x300`, which are the 256 opcodes
`0x300..0x3ff`; for those, no case label of the `m_op & 0x3f0` switch, of the
`m_op & 0x3fc` switch or of the exact-value switch equals the scrutinee. -/
theorem short_branch_class (op : Nat) (hop : op < 1024) :
    (dispatch op = .op_br ↔ op &&& 0x300 = 0x300) ∧
    (op &&& 0x300 = 0x300 ↔ 0x300 ≤ op) ∧
    (op &&& 0x300 = 0x300 →
      (∀ e ∈ tier1, e.1 ≠ op &&& 0x3f0) ∧
      (∀ e ∈ tier2, e.1 ≠ op &&& 0x3fc) ∧
      (∀ e ∈ tier3, e.1 ≠ op)) := by
  have key : ∀ op, op < 1024 →
      (dispatch op = .op_br ↔ op &&& 0x300 = 0x300) ∧
      (op &&& 0x300 = 0x300 ↔ 0x300 ≤ op) ∧
      (op &&& 0x300 = 0x300 →
        switchOn tier1 (op &&& 0x3f0) = none ∧
        switchOn tier2 (op &&& 0x3fc) = none ∧
        switchOn tier3 op = none) := by
    decide
  obtain ⟨h1, h2, h3⟩ := key op hop
  refine ⟨h1, h2, fun hb => ?_⟩
  obtain ⟨n1, n2, n3⟩ := h3 hb
  exact ⟨(switchOn_eq_none _ _).mp n1, (switchOn_eq_none _ _).mp n2,
    (switchOn_eq_none _ _).mp n3⟩

/-- C4 at the opcode `0x3a5`. -/
theorem short_branch_class_witness :
    (dispatch 0x3a5 = .op_br ↔ 0x3a5 &&& 0x300 = 0x300) ∧
    (0x3a5 &&& 0x300 = 0x300 ↔ 0x300 ≤ 0x3a5) ∧
    (0x3a5 &&& 0x300 = 0x300 →
      (∀ e ∈ tier1, e.1 ≠ 0x3a5 &&& 0x3f0) ∧
      (∀ e ∈ tier2, e.1 ≠ 0x3a5 &&& 0x3fc) ∧
      (∀ e ∈ tier3, e.1 ≠ 0x3a5)) :=
  short_branch_class 0x3a5 (by decide)

/-! ## Tier order -/

theorem dispatch_eq_in_order (op : Nat) :
    dispatch op = dispatch_in_order [.classes, .bits, .exact] op := by
  unfold dispatch
  simp only [dispatch_in_order, tierMatch]
  cases h1 : switchOn tier1 (op &&& 0x3f0) with
  | some h => rfl
  | none =>
    dsimp only
    by_cases hb : op &&& 0x300 = 0x300
    · simp only [hb, if_true]
    · simp only [hb, if_false]

theorem perm_mem_tierOrders (order : List Tier)
    (h : order.Perm [.classes, .bits, .exact]) : order ∈ tierOrders := by
  have hl := h.length_eq
  match order, hl with
  | [a, b, c], _ =>
    cases a <;> cases b <;> cases c <;>
      first
      | (simp [tierOrders]; done)
      | (exfalso; revert h; decide)

set_option maxRecDepth 100000 in
theorem tiers_disjoint : ∀ op, op < 1024 → ¬
    (((tierMatch .classes op).isSome = true ∧ (tierMatch .bits op).isSome = true) ∨
     ((tierMatch .classes op).isSome = true ∧ (tierMatch .exact op).isSome = true) ∨
     ((tierMatch .bits op).isSome = true ∧ (tierMatch .exact op).isSome = true)) := by
  decide

theorem order_irrelevant_of_disjoint (op : Nat)
    (hd : ¬ (((tierMatch .classes op).isSome = true ∧ (tierMatch .bits op).isSome = true) ∨
       ((tierMatch .classes op).isSome = true ∧ (tierMatch .exact op).isSome = true) ∨
       ((tierMatch .bits op).isSome = true ∧ (tierMatch .exact op).isSome = true)))
    (o : List Tier) (ho : o ∈ tierOrders) :
    dispatch_in_order o op = dispatch_in_order [.classes, .bits, .exact] op := by
  simp only [tierOrders, List.mem_cons, List.mem_singleton, List.not_mem_nil, or_false] at ho
  cases h1 : tierMatch .classes op <;> cases h2 : tierMatch .bits op <;>
    cases h3 : tierMatch .exact op <;>
    simp only [h1, h2, h3, Option.isSome_some, Option.isSome_none, and_self, and_true, and_false,
      or_self, or_true, or_false, not_true_eq_false, not_false_eq_true, Bool.false_eq_true] at hd <;>
    rcases ho with rfl | rfl | rfl | rfl | rfl | rfl <;>
    simp only [dispatch_in_order, h1, h2, h3]

/-- C5 (refuted as stated). No opcode below 1024 has matching entries in two
different tiers of the dispatcher, and no order of consulting the three tiers
maps an opcode to a handler other than the one the code selects. -/
theorem no_opcode_in_two_tiers :
    ¬ ∃ op, op < 1024 ∧
      ((((tierMatch .classes op).isSome = true ∧ (tierMatch .bits op).isSome = true) ∨
        ((tierMatch .classes op).isSome = true ∧ (tierMatch .exact op).isSome = true) ∨
        ((tierMatch .bits op).isSome = true ∧ (tierMatch .exact op).isSome = true)) ∨
       ∃ order : List Tier, order.Perm [.classes, .bits, .exact] ∧
        dispatch_in_order order op ≠ dispatch op) := by
  rintro ⟨op, hop, h | ⟨order, hperm, hne⟩⟩
  · exact tiers_disjoint op hop h
  · apply hne
    rw [dispatch_eq_in_order]
    exact order_irrelevant_of_disjoint op (tiers_disjoint op hop) order
      (perm_mem_tierOrders order hperm)

/-- C5 (amended). Tier order does not matter: for every opcode below 1024 at
most one tier has a matching entry, so for every order in which the three tiers
are consulted, ordered dispatch selects the handler that the code selects; the
code's own order is classes, bits, exact. -/
theorem tier_order_irrelevant (op : Nat) (hop : op < 1024) (order : List Tier)
    (horder : order.Perm [.classes, .bits, .exact]) :
    dispatch_in_order order op = dispatch op ∧
    dispatch op = dispatch_in_order [.classes, .bits, .exact] op ∧
    ¬ ((tierMatch .classes op).isSome = true ∧ (tierMatch .bits op).isSome = true) ∧
    ¬ ((tierMatch .classes op).isSome = true ∧ (tierMatch .exact op).isSome = true) ∧
    ¬ ((tierMatch .bits op).isSome = true ∧ (tierMatch .exact op).isSome = true) := by
  have hd := tiers_disjoint op hop
  refine ⟨?_, dispatch_eq_in_order op, fun h => hd (Or.inl h),
    fun h => hd (Or.inr (Or.inl h)), fun h => hd (Or.inr (Or.inr h))⟩
  rw [dispatch_eq_in_order]
  exact order_irrelevant_of_disjoint op hd order (perm_mem_tierOrders order horder)

/-- C5 (amended) at opcode `0x084` with the tiers consulted in reverse. -/
theorem tier_order_irrelevant_witness :
    dispatch_in_order [.exact, .bits, .classes] 0x084 = dispatch 0x084 ∧
    dispatch 0x084 = dispatch_in_order [.classes, .bits, .exact] 0x084 ∧
    ¬ ((tierMatch .classes 0x084).isSome = true ∧ (tierMatch .bits 0x084).isSome = true) ∧
    ¬ ((tierMatch .classes 0x084).isSome = true ∧ (tierMatch .exact 0x084).isSome = true) ∧
    ¬ ((tierMatch .bits 0x084).isSome = true ∧ (tierMatch .exact 0x084).isSome = true) :=
  tier_order_irrelevant 0x084 (by decide) [.exact, .bits, .classes] (by decide)

/-! ## Cost of an illegal opcode -/

theorem iteration_illegal (H : Handlers) (prog : Program) (s : State)
    (hill : dispatch (opcode_at prog s) = .op_illegal) :
    iteration H prog s = H .op_illegal (fetch_phase prog s) := by
  unfold iteration decode
  dsimp only
  rw [fetch_phase_op, hill]

/-- C6 (refuted as stated). With handlers that leave the budget and the program
counter alone, it is not the case that every pass through the loop body on an
illegal opcode costs one cycle: from budget 1 and program counter 0, the illegal
opcode `0x101` leaves budget -1 and program counter 2. -/
theorem illegal_opcode_cost_not_one :
    ¬ ∀ (H : Handlers) (prog : Program) (s : State),
      (∀ t, (H .op_illegal t).m_icount = t.m_icount ∧ (H .op_illegal t).m_pc = t.m_pc) →
      dispatch (opcode_at prog s) = .op_illegal →
      (iteration H prog s).m_icount = s.m_icount - 1 := by
  intro h
  have h1 := h (fun _ t => t) (fun _ => 0x101)
    (startState 1 (fun _ => 0) ⟨0, 0, 0, 0, 0, 0, 0⟩) (fun t => ⟨rfl, rfl⟩) (by decide)
  revert h1
  decide

/-- C6 (amended). For every opcode that the dispatcher maps to `op_illegal`,
with a handler body that leaves budget and program counter alone: when the
opcode lies outside the two-word ranges, one pass through the loop body costs
one cycle and one program word, as for opcode `0x000`; when it lies inside them
(`0x101` for one), the pass costs two cycles and two program words. -/
theorem illegal_opcode_cost (H : Handlers)
    (hH : ∀ t, (H .op_illegal t).m_icount = t.m_icount ∧ (H .op_illegal t).m_pc = t.m_pc)
    (prog : Program) (s : State)
    (hill : dispatch (opcode_at prog s) = .op_illegal) :
    (two_word (opcode_at prog s) = false →
      (iteration H prog s).m_icount = s.m_icount - 1 ∧
      (iteration H prog s).m_pc = (s.m_pc + 1) % 16384) ∧
    (two_word (opcode_at prog s) = true →
      (iteration H prog s).m_icount = s.m_icount - 2 ∧
      (iteration H prog s).m_pc = (s.m_pc + 2) % 16384) ∧
    two_word 0x000 = false ∧ dispatch 0x101 = .op_illegal ∧ two_word 0x101 = true := by
  have hpc1 : ((s.m_pc + 1) &&& 0x3fff) % 65536 = (s.m_pc + 1) % 16384 := by
    rw [mask14_eq_mod]; omega
  have hpc2 : ((((s.m_pc + 1) &&& 0x3fff) % 65536 + 1) &&& 0x3fff) % 65536
      = (s.m_pc + 2) % 16384 := by
    rw [hpc1, mask14_eq_mod]; omega
  rw [iteration_illegal H prog s hill, (hH _).1, (hH _).2]
  refine ⟨fun h1 => ?_, fun h2 => ?_, by decide, by decide, by decide⟩
  · rw [fetch_phase_one prog s h1]
    exact ⟨rfl, hpc1⟩
  · rw [fetch_phase_two prog s h2]
    refine ⟨?_, hpc2⟩
    show s.m_icount - 1 - 1 = s.m_icount - 2
    omega

/-- C6 (amended) at the illegal two-word opcode `0x101`, budget 1, program
counter 0, with handlers that do nothing. -/
theorem illegal_opcode_cost_witness :
    dispatch (opcode_at (fun _ => 0x101) (startState 1 (fun _ => 0) ⟨0, 0, 0, 0, 0, 0, 0⟩))
      = .op_illegal ∧
    (iteration (fun _ t => t) (fun _ => 0x101)
      (startState 1 (fun _ => 0) ⟨0, 0, 0, 0, 0, 0, 0⟩)).m_icount = 1 - 2 ∧
    (iteration (fun _ t => t) (fun _ => 0x101)
      (startState 1 (fun _ => 0) ⟨0, 0, 0, 0, 0, 0, 0⟩)).m_pc = (0 + 2) % 16384 :=
  ⟨by decide,
   (illegal_opcode_cost (fun _ t => t) (fun _ => ⟨rfl, rfl⟩) (fun _ => 0x101)
      (startState 1 (fun _ => 0) ⟨0, 0, 0, 0, 0, 0, 0⟩) (by decide)).2.1 (by decide)⟩

/-! ## End-to-end scenario -/

theorem execute_run_succ (H : Handlers) (prog : Program) (fuel : Nat) (s : State)
    (h : s.m_icount > 0) :
    execute_run H prog (fuel + 1) s =
      (execute_run H prog fuel (iteration H prog s)).map
        (fun r => (r.1, selected prog s :: r.2)) := by
  simp only [execute_run, h, if_true]

theorem execute_run_done (H : Handlers) (prog : Program) (fuel : Nat) (s : State)
    (h : s.m_icount ≤ 0) :
    execute_run H prog fuel s = some (s, []) := by
  have h' : ¬ s.m_icount > 0 := by omega
  cases fuel <;> simp only [execute_run, h', if_false]

theorem scenario_first (target : State → Nat) (rest : Handlers)
    (fill : Nat → Nat) (data : Nat → Nat) (regs : Registers) :
    iteration (specHandlers target rest) (scenarioProgram fill) (startState 2 data regs) =
      { m_pc := 1, m_prev_pc := 0, m_op := 0x230, m_param := 0, m_icount := 1,
        data := data, regs := { regs with a := 0 } } := by
  have hop : opcode_at (scenarioProgram fill) (startState 2 data regs) = 0x230 := by
    simp [opcode_at, read_word, scenarioProgram, startState]
    decide
  have htw : two_word (opcode_at (scenarioProgram fill) (startState 2 data regs)) = false := by
    rw [hop]; decide
  have hd : dispatch 0x230 = .op_lai := by decide
  unfold iteration decode
  dsimp only
  rw [fetch_phase_op, hop, hd, fetch_phase_one _ _ htw, hop]
  simp [specHandlers, op_lai, startState]
  decide

theorem scenario_second (target : State → Nat) (rest : Handlers)
    (fill : Nat → Nat) (data : Nat → Nat) (regs : Registers) :
    iteration (specHandlers target rest) (scenarioProgram fill)
      { m_pc := 1, m_prev_pc := 0, m_op := 0x230, m_param := 0, m_icount := 1,
        data := data, regs := { regs with a := 0 } } =
      { m_pc := 2, m_prev_pc := 1, m_op := 0x244, m_param := 0, m_icount := 0,
        data := data, regs := { regs with a := 0 } } := by
  have hop : opcode_at (scenarioProgram fill)
      { m_pc := 1, m_prev_pc := 0, m_op := 0x230, m_param := 0, m_icount := 1,
        data := data, regs := { regs with a := 0 } } = 0x244 := by
    simp [opcode_at, read_word, scenarioProgram]
    decide
  have htw : two_word (opcode_at (scenarioProgram fill)
      { m_pc := 1, m_prev_pc := 0, m_op := 0x230, m_param := 0, m_icount := 1,
        data := data, regs := { regs with a := 0 } }) = false := by
    rw [hop]; decide
  have hd : dispatch 0x244 = .op_lbr := by decide
  unfold iteration decode
  dsimp only
  rw [fetch_phase_op, hop, hd, fetch_phase_one _ _ htw, hop]
  simp [specHandlers, op_lbr]
  decide

/-- C7. End-to-end scenario: from program counter 0 and budget 2, with `0x0230`
at address 0 and `0x0244` at address 1, `execute_run` (given any fuel of at
least 2) returns after exactly two instructions, dispatched to `op_lai` and then
`op_lbr`; the accumulator is loaded with 0, the branch is not taken (the
program counter is 1 after the first instruction and 2 at the end), and the
budget is 0. -/
theorem scenario_two_instructions (target : State → Nat) (rest : Handlers)
    (fill : Nat → Nat) (data : Nat → Nat) (regs : Registers) (k : Nat) :
    (execute_run (specHandlers target rest) (scenarioProgram fill) (k + 2)
        (startState 2 data regs)).map
      (fun r => (r.1.m_pc, r.1.m_icount, r.1.regs.a, r.2))
      = some (2, 0, 0, [.op_lai, .op_lbr]) ∧
    dispatch 0x0230 = .op_lai ∧
    (iteration (specHandlers target rest) (scenarioProgram fill)
      (startState 2 data regs)).m_pc = 1 ∧
    (iteration (specHandlers target rest) (scenarioProgram fill)
      (startState 2 data regs)).m_icount = 1 := by
  have h1 := scenario_first target rest fill data regs
  have h2 := scenario_second target rest fill data regs
  refine ⟨?_, by decide, by rw [h1], by rw [h1]⟩
  have hs1 : selected (scenarioProgram fill) (startState 2 data regs) = .op_lai := by
    unfold selected decode
    rw [fetch_phase_op]
    have hop : opcode_at (scenarioProgram fill) (startState 2 data regs) = 0x230 := by
      simp [opcode_at, read_word, scenarioProgram, startState]
      decide
    rw [hop]
    decide
  have hs2 : selected (scenarioProgram fill)
      { m_pc := 1, m_prev_pc := 0, m_op := 0x230, m_param := 0, m_icount := 1,
        data := data, regs := { regs with a := 0 } } = .op_lbr := by
    unfold selected decode
    rw [fetch_phase_op]
    have hop : opcode_at (scenarioProgram fill)
        { m_pc := 1, m_prev_pc := 0, m_op := 0x230, m_param := 0, m_icount := 1,
          data := data, regs := { regs with a := 0 } } = 0x244 := by
      simp [opcode_at, read_word, scenarioProgram]
      decide
    rw [hop]
    decide
  rw [execute_run_succ _ _ _ _ (by simp [startState]), h1,
    execute_run_succ _ _ _ _ (by simp), h2,
    execute_run_done _ _ _ _ (by simp), hs1, hs2]
  rfl

/-! ## Termination of the loop -/

theorem fetch_phase_icount_le (prog : Program) (s : State) :
    (fetch_phase prog s).m_icount ≤ s.m_icount - 1 := by
  cases hb : two_word (opcode_at prog s)
  · rw [fetch_phase_one prog s hb]
  · rw [fetch_phase_two prog s hb]
    show s.m_icount - 1 - 1 ≤ s.m_icount - 1
    omega

theorem iteration_icount_le (H : Handlers)
    (hH : ∀ h t, (H h t).m_icount ≤ t.m_icount) (prog : Program) (s : State) :
    (iteration H prog s).m_icount ≤ s.m_icount - 1 :=
  le_trans (hH _ _) (fetch_phase_icount_le prog s)

theorem execute_run_bounded (H : Handlers)
    (hH : ∀ h t, (H h t).m_icount ≤ t.m_icount) (prog : Program) :
    ∀ (fuel : Nat) (s : State), s.m_icount.toNat ≤ fuel →
      ∃ s' tr, execute_run H prog fuel s = some (s', tr) ∧
        tr.length ≤ s.m_icount.toNat ∧ s'.m_icount ≤ 0 := by
  intro fuel
  induction fuel with
  | zero =>
    intro s hs
    have h0 : s.m_icount ≤ 0 := by omega
    exact ⟨s, [], execute_run_done H prog 0 s h0, Nat.zero_le _, h0⟩
  | succ fuel ih =>
    intro s hs
    by_cases hpos : s.m_icount > 0
    · have hle := iteration_icount_le H hH prog s
      have hfuel : (iteration H prog s).m_icount.toNat ≤ fuel := by omega
      obtain ⟨s', tr, hrun, hlen, hfin⟩ := ih (iteration H prog s) hfuel
      refine ⟨s', selected prog s :: tr, ?_, ?_, hfin⟩
      · rw [execute_run_succ H prog fuel s hpos, hrun]
        rfl
      · simp only [List.length_cons]
        omega
    · have h0 : s.m_icount ≤ 0 := by omega
      exact ⟨s, [], execute_run_done H prog _ s h0, Nat.zero_le _, h0⟩

/-- C8. Loop termination on budget: when no handler raises the budget, then
for every budget `n`, every program store and any fuel of at least `max(n, 0)`,
`execute_run` returns, having executed at most `max(n, 0)` instructions, with
remaining budget `<= 0`; entered with `n <= 0` it executes nothing and returns
the state it was given (no fetch; program counter, `m_prev_pc`, `m_op`,
`m_param` as they were). -/
theorem execute_run_terminates (H : Handlers)
    (hH : ∀ h t, (H h t).m_icount ≤ t.m_icount) (prog : Program) (s : State)
    (fuel : Nat) (hfuel : s.m_icount.toNat ≤ fuel) :
    (∃ s' tr, execute_run H prog fuel s = some (s', tr) ∧
      tr.length ≤ s.m_icount.toNat ∧ s'.m_icount ≤ 0) ∧
    (s.m_icount ≤ 0 → execute_run H prog fuel s = some (s, [])) :=
  ⟨execute_run_bounded H hH prog fuel s hfuel, execute_run_done H prog fuel s⟩

/-- C8 at budget 3 with handlers that do nothing and a program store of zeros. -/
theorem execute_run_terminates_witness :
    (∃ s' tr, execute_run (fun _ t => t) (fun _ => 0) 3
        (startState 3 (fun _ => 0) ⟨0, 0, 0, 0, 0, 0, 0⟩) = some (s', tr) ∧
      tr.length ≤ (3 : Int).toNat ∧ s'.m_icount ≤ 0) ∧
    ((3 : Int) ≤ 0 → execute_run (fun _ t => t) (fun _ => 0) 3
        (startState 3 (fun _ => 0) ⟨0, 0, 0, 0, 0, 0, 0⟩) =
      some (startState 3 (fun _ => 0) ⟨0, 0, 0, 0, 0, 0, 0⟩, [])) :=
  execute_run_terminates (fun _ t => t) (fun _ t => le_refl _) (fun _ => 0)
    (startState 3 (fun _ => 0) ⟨0, 0, 0, 0, 0, 0, 0⟩) 3 (by decide)

/-! ## Immediate loads -/

set_option maxRecDepth 100000 in
/-- C9 (refuted as stated). No upper 6-bit pattern sends all sixteen 4-bit
literals to `op_lwi`. -/
theorem no_lwi_pattern :
    ¬ ∃ p, p < 64 ∧ ∀ i, i < 16 → dispatch (p * 16 + i) = .op_lwi := by
  decide

set_option maxRecDepth 100000 in
/-- C9 (amended). For `op_lai`, `op_lbi`, `op_lxi`, `op_lyi` the upper six bits
`0x23`, `0x20`, `0x22`, `0x21` followed by any 4-bit literal dispatch to the
handler. For `op_lwi` the fixed pattern is the upper eight bits `0x3c` and the
literal has two bits: `0x0f0 + i` dispatches to `op_lwi` exactly for `i` in
0..3, and to `op_illegal` for `i` in 4..15. -/
theorem immediate_load_encoding (i : Nat) (hi : i < 16) :
    dispatch (0x23 * 16 + i) = .op_lai ∧
    dispatch (0x20 * 16 + i) = .op_lbi ∧
    dispatch (0x22 * 16 + i) = .op_lxi ∧
    dispatch (0x21 * 16 + i) = .op_lyi ∧
    (i < 4 → dispatch (0x3c * 4 + i) = .op_lwi) ∧
    (dispatch (0x0f * 16 + i) = .op_lwi ↔ i < 4) ∧
    (4 ≤ i → dispatch (0x0f * 16 + i) = .op_illegal) := by
  have key : ∀ i, i < 16 →
      dispatch (0x23 * 16 + i) = .op_lai ∧
      dispatch (0x20 * 16 + i) = .op_lbi ∧
      dispatch (0x22 * 16 + i) = .op_lxi ∧
      dispatch (0x21 * 16 + i) = .op_lyi ∧
      (i < 4 → dispatch (0x3c * 4 + i) = .op_lwi) ∧
      (dispatch (0x0f * 16 + i) = .op_lwi ↔ i < 4) ∧
      (4 ≤ i → dispatch (0x0f * 16 + i) = .op_illegal) := by
    decide
  exact key i hi

/-- C9 (amended) at the literal 5. -/
theorem immediate_load_encoding_witness :
    dispatch (0x23 * 16 + 5) = .op_lai ∧
    dispatch (0x20 * 16 + 5) = .op_lbi ∧
    dispatch (0x22 * 16 + 5) = .op_lxi ∧
    dispatch (0x21 * 16 + 5) = .op_lyi ∧
    (5 < 4 → dispatch (0x3c * 4 + 5) = .op_lwi) ∧
    (dispatch (0x0f * 16 + 5) = .op_lwi ↔ 5 < 4) ∧
    (4 ≤ 5 → dispatch (0x0f * 16 + 5) = .op_illegal) :=
  immediate_load_encoding 5 (by decide)

/-! ## Frame of an illegal opcode -/

/-- C10. Illegal-opcode frame: with the `op_illegal` body of the spec, for
every prior state and every program store whose word at `m_pc` is an opcode
that the dispatcher maps to `op_illegal`, one pass through the loop body
leaves the data store and the register file as they were; the state afterwards
is the prior state with only `m_pc`, `m_prev_pc`, `m_op`, `m_param` and
`m_icount` replaced. -/
theorem illegal_opcode_frame (H : Handlers) (hH : H .op_illegal = op_illegal)
    (prog : Program) (s : State)
    (hill : dispatch (opcode_at prog s) = .op_illegal) :
    (iteration H prog s).data = s.data ∧
    (iteration H prog s).regs = s.regs ∧
    iteration H prog s =
      { s with
        m_pc := (iteration H prog s).m_pc
        m_prev_pc := (iteration H prog s).m_prev_pc
        m_op := (iteration H prog s).m_op
        m_param := (iteration H prog s).m_param
        m_icount := (iteration H prog s).m_icount } := by
  rw [iteration_illegal H prog s hill, hH]
  unfold op_illegal
  cases hb : two_word (opcode_at prog s)
  · rw [fetch_phase_one prog s hb]
    exact ⟨rfl, rfl, rfl⟩
  · rw [fetch_phase_two prog s hb]
    exact ⟨rfl, rfl, rfl⟩

/-- C10 at the illegal opcode `0x101` from budget 1 with data store and
registers holding sevens. -/
theorem illegal_opcode_frame_witness :
    (iteration (specHandlers (fun _ => 0) (fun _ t => t)) (fun _ => 0x101)
      (startState 1 (fun _ => 7) ⟨7, 7, 7, 7, 7, 7, 7⟩)).data = (fun _ => 7) ∧
    (iteration (specHandlers (fun _ => 0) (fun _ t => t)) (fun _ => 0x101)
      (startState 1 (fun _ => 7) ⟨7, 7, 7, 7, 7, 7, 7⟩)).regs = ⟨7, 7, 7, 7, 7, 7, 7⟩ :=
  ⟨(illegal_opcode_frame (specHandlers (fun _ => 0) (fun _ t => t)) rfl (fun _ => 0x101)
      (startState 1 (fun _ => 7) ⟨7, 7, 7, 7, 7, 7, 7⟩) (by decide)).1,
   (illegal_opcode_frame (specHandlers (fun _ => 0) (fun _ t => t)) rfl (fun _ => 0x101)
      (startState 1 (fun _ => 7) ⟨7, 7, 7, 7, 7, 7, 7⟩) (by decide)).2.1⟩

/-! ## Clock divider -/

/-- C11 (the code at the failing input). Every device has divider 8 after
construction, and `set_divider` is refused on a variant without the divider
option; but on the HMCS408 family `set_divider` stores any `u8` unchecked:
`set_divider(0)` is accepted and leaves divider 0, which is none of 4, 8, 16 and
makes `execute_clocks_to_cycles` divide by zero. -/
theorem set_divider_unchecked :
    (∀ d : Device, d.construct.m_divider = 8) ∧
    (∀ d : Device, d.construct.m_has_div = true ↔ d.family = .hmcs408) ∧
    (∀ (div : Nat) (v : Variant), v.m_has_div = false → set_divider div v = none) ∧
    (∀ (div : Nat) (v : Variant), v.m_has_div = true →
      set_divider div v = some { v with m_divider := div % 256 }) ∧
    set_divider 0 hmcs408_cpu_device = some { hmcs408_cpu_device with m_divider := 0 } ∧
    (∀ clocks : Nat,
      execute_clocks_to_cycles { hmcs408_cpu_device with m_divider := 0 } clocks = none) := by
  refine ⟨?_, ?_, ?_, ?_, by decide, fun _ => rfl⟩
  · intro d
    cases d <;> rfl
  · intro d
    cases d <;> decide
  · intro div v h
    simp [set_divider, h]
  · intro div v h
    simp [set_divider, h]

/-! ## Data-memory windows -/

/-- C12. Data-memory windows: for each of the three families (whose
constructors pass RAM sizes 96, 192, 448), `data_map` populates exactly two
ranges, `[0x020, 0x020 + ram_size - 1]` and `[0x3c0, 0x3ff]`; both lie inside
the 10-bit data space, the second has 64 entries and ends at 1023, the two are
disjoint, and `ram_size + 64` is the family's documented RAM size. -/
theorem data_memory_windows (f : Family) :
    (f.construct.m_ram_size = 96 ∨ f.construct.m_ram_size = 192 ∨
      f.construct.m_ram_size = 448) ∧
    Family.hmcs402.construct.m_ram_size = 96 ∧
    Family.hmcs404.construct.m_ram_size = 192 ∧
    Family.hmcs408.construct.m_ram_size = 448 ∧
    data_map f.construct = [(0x020, 0x020 + f.construct.m_ram_size - 1), (0x3c0, 0x3ff)] ∧
    (data_map f.construct).length = 2 ∧
    (∀ r ∈ data_map f.construct, r.1 ≤ r.2 ∧ r.2 < data_space_size) ∧
    0x3ff - 0x3c0 + 1 = 64 ∧
    0x3ff = data_space_size - 1 ∧
    0x020 + f.construct.m_ram_size - 1 < 0x3c0 ∧
    f.construct.m_ram_size + 64 = f.documented_ram ∧
    Family.hmcs402.documented_ram = 160 ∧
    Family.hmcs404.documented_ram = 256 ∧
    Family.hmcs408.documented_ram = 512 := by
  cases f <;> decide

/-! ## No dead handler -/

theorem mem_allHandlers (h : Handler) : h ∈ allHandlers := by
  cases h <;> decide

theorem dispatch_representative (h : Handler) :
    representative h < 1024 ∧ dispatch (representative h) = h := by
  cases h <;> decide

/-- C13. No dead handler: the header declares 83 handlers (82 instruction
handlers and `op_illegal`), all distinct; every one of them is selected by the
dispatcher for at least one opcode in 0..1023, and the dispatcher selects
nothing else. -/
theorem no_dead_handler :
    allHandlers.length = 83 ∧
    allHandlers.Nodup ∧
    (∀ h : Handler, h ∈ allHandlers) ∧
    (∀ h : Handler, h ∈ allHandlers ↔ ∃ op, op < 1024 ∧ dispatch op = h) ∧
    (∀ op : Nat, dispatch op ∈ allHandlers) := by
  refine ⟨rfl, by decide, mem_allHandlers, fun h => ?_, fun op => mem_allHandlers _⟩
  constructor
  · intro _
    exact ⟨representative h, dispatch_representative h⟩
  · intro _
    exact mem_allHandlers h

/-! ## Clock and cycle conversion -/

theorem ceil_div_eq (k d : Nat) (hd : 0 < d) :
    ⌈(k : ℚ) / (d : ℚ)⌉₊ = (k + d - 1) / d := by
  have hdq : (0 : ℚ) < (d : ℚ) := by exact_mod_cast hd
  have hlo : k ≤ (k + d - 1) / d * d := by
    have h1 := Nat.div_add_mod (k + d - 1) d
    have h2 := Nat.mod_lt (k + d - 1) hd
    have h3 : d * ((k + d - 1) / d) = (k + d - 1) / d * d := Nat.mul_comm _ _
    omega
  have hhi : (k + d - 1) / d * d < k + d := by
    have h1 := Nat.div_mul_le_self (k + d - 1) d
    omega
  apply le_antisymm
  · rw [Nat.ceil_le, div_le_iff₀ hdq]
    exact_mod_cast hlo
  · rcases Nat.eq_zero_or_pos ((k + d - 1) / d) with h0 | hpos
    · rw [h0]; exact Nat.zero_le _
    · have hlt : (k + d - 1) / d - 1 < ⌈(k : ℚ) / (d : ℚ)⌉₊ := by
        rw [Nat.lt_ceil, lt_div_iff₀ hdq]
        have h4 : ((k + d - 1) / d - 1) * d < k := by
          have h5 : ((k + d - 1) / d - 1) * d + d = (k + d - 1) / d * d := by
            have h6 : (k + d - 1) / d - 1 + 1 = (k + d - 1) / d := by omega
            calc ((k + d - 1) / d - 1) * d + d
                = ((k + d - 1) / d - 1 + 1) * d := by ring
              _ = (k + d - 1) / d * d := by rw [h6]
          omega
        exact_mod_cast h4
      omega

theorem clocks_to_cycles_no_wrap (v : Variant) (hpos : 0 < v.m_divider) (k : Nat)
    (hk : k + v.m_divider - 1 < 2 ^ 64) :
    execute_clocks_to_cycles v k = some ((k + v.m_divider - 1) / v.m_divider) := by
  unfold execute_clocks_to_cycles
  have hne : v.m_divider ≠ 0 := by omega
  simp only [hne, if_false]
  have hw : ((k + v.m_divider) % 2 ^ 64 + (2 ^ 64 - 1)) % 2 ^ 64 = k + v.m_divider - 1 := by
    omega
  rw [hw]

/-- C15. Clock/cycle conversion round trip: for every divider `d` in
{4, 8, 16} and every clocks value `k` with `k + d - 1 < 2^64`,
`execute_clocks_to_cycles(k)` is the ceiling of `k / d`, and converting it back
with `execute_cycles_to_clocks` gives the least multiple of `d` that is `>= k`;
for every cycles value `c` with `c * d + d - 1 < 2^64`, converting to clocks and
back gives `c`. -/
theorem clock_cycle_round_trip (v : Variant)
    (hd : v.m_divider = 4 ∨ v.m_divider = 8 ∨ v.m_divider = 16)
    (k : Nat) (hk : k + v.m_divider - 1 < 2 ^ 64)
    (c : Nat) (hc : c * v.m_divider + v.m_divider - 1 < 2 ^ 64) :
    execute_clocks_to_cycles v k = some ⌈(k : ℚ) / (v.m_divider : ℚ)⌉₊ ∧
    execute_clocks_to_cycles v (execute_cycles_to_clocks v c) = some c ∧
    (∃ r, execute_clocks_to_cycles v k = some r ∧
      v.m_divider ∣ execute_cycles_to_clocks v r ∧
      k ≤ execute_cycles_to_clocks v r ∧
      ∀ m, v.m_divider ∣ m → k ≤ m → execute_cycles_to_clocks v r ≤ m) := by
  have hpos : 0 < v.m_divider := by omega
  have hkc := clocks_to_cycles_no_wrap v hpos k hk
  have hlo : k ≤ (k + v.m_divider - 1) / v.m_divider * v.m_divider := by
    have h1 := Nat.div_add_mod (k + v.m_divider - 1) v.m_divider
    have h2 := Nat.mod_lt (k + v.m_divider - 1) hpos
    have h3 : v.m_divider * ((k + v.m_divider - 1) / v.m_divider)
        = (k + v.m_divider - 1) / v.m_divider * v.m_divider := Nat.mul_comm _ _
    omega
  have hhi : (k + v.m_divider - 1) / v.m_divider * v.m_divider ≤ k + v.m_divider - 1 :=
    Nat.div_mul_le_self _ _
  have hback : execute_cycles_to_clocks v ((k + v.m_divider - 1) / v.m_divider)
      = (k + v.m_divider - 1) / v.m_divider * v.m_divider := by
    unfold execute_cycles_to_clocks
    exact Nat.mod_eq_of_lt (by omega)
  refine ⟨?_, ?_, (k + v.m_divider - 1) / v.m_divider, hkc, ?_, ?_, ?_⟩
  · rw [hkc, ceil_div_eq k v.m_divider hpos]
  · have hcc : execute_cycles_to_clocks v c = c * v.m_divider := by
      unfold execute_cycles_to_clocks
      exact Nat.mod_eq_of_lt (by omega)
    rw [hcc, clocks_to_cycles_no_wrap v hpos (c * v.m_divider) hc]
    congr 1
    have h1 : c * v.m_divider + v.m_divider - 1 = v.m_divider - 1 + c * v.m_divider := by
      omega
    rw [h1, Nat.add_mul_div_right _ _ hpos, Nat.div_eq_of_lt (by omega)]
    omega
  · rw [hback]
    exact Dvd.intro_left _ rfl
  · rw [hback]
    exact hlo
  · intro m hdvd hkm
    rw [hback]
    obtain ⟨q, rfl⟩ := hdvd
    rw [Nat.mul_comm v.m_divider q]
    have hr : (k + v.m_divider - 1) / v.m_divider < q + 1 := by
      rw [Nat.div_lt_iff_lt_mul hpos, Nat.add_mul, Nat.one_mul]
      have hcomm : v.m_divider * q = q * v.m_divider := Nat.mul_comm _ _
      omega
    exact Nat.mul_le_mul_right _ (Nat.lt_succ_iff.mp hr)

/-- C15 at divider 8 (the HMCS402 family), 20 clocks and 5 cycles. -/
theorem clock_cycle_round_trip_witness :
    execute_clocks_to_cycles hmcs402_cpu_device 20
      = some ⌈((20 : Nat) : ℚ) / (hmcs402_cpu_device.m_divider : ℚ)⌉₊ ∧
    execute_clocks_to_cycles hmcs402_cpu_device
      (execute_cycles_to_clocks hmcs402_cpu_device 5) = some 5 ∧
    (∃ r, execute_clocks_to_cycles hmcs402_cpu_device 20 = some r ∧
      hmcs402_cpu_device.m_divider ∣ execute_cycles_to_clocks hmcs402_cpu_device r ∧
      20 ≤ execute_cycles_to_clocks hmcs402_cpu_device r ∧
      ∀ m, hmcs402_cpu_device.m_divider ∣ m → 20 ≤ m →
        execute_cycles_to_clocks hmcs402_cpu_device r ≤ m) :=
  clock_cycle_round_trip hmcs402_cpu_device (by decide) 20 (by decide) 5 (by decide)

/-! ## Bounded overshoot -/

theorem two_word_iff (op : Nat) :
    two_word op = true ↔ ((0x100 ≤ op ∧ op < 0x140) ∨ (0x150 ≤ op ∧ op < 0x1b0)) := by
  simp [two_word]

theorem iteration_icount_eq (H : Handlers)
    (hH : ∀ h t, (H h t).m_icount = t.m_icount) (prog : Program) (s : State) :
    (iteration H prog s).m_icount =
      s.m_icount - (if two_word (opcode_at prog s) = true then 2 else 1) := by
  unfold iteration
  dsimp only
  rw [hH]
  cases hb : two_word (opcode_at prog s)
  · rw [fetch_phase_one prog s hb]
    simp
  · rw [fetch_phase_two prog s hb]
    show s.m_icount - 1 - 1 = s.m_icount - (if true = true then 2 else 1)
    simp
    omega

theorem execute_run_last_pass (H : Handlers)
    (hH : ∀ h t, (H h t).m_icount = t.m_icount) (prog : Program) :
    ∀ (fuel : Nat) (s : State), 0 < s.m_icount → s.m_icount.toNat ≤ fuel →
      ∃ k tr,
        execute_run H prog fuel s =
          some (iteration H prog (Nat.iterate (iteration H prog) k s), tr) ∧
        tr.length = k + 1 ∧
        0 < (Nat.iterate (iteration H prog) k s).m_icount ∧
        (iteration H prog (Nat.iterate (iteration H prog) k s)).m_icount ≤ 0 := by
  intro fuel
  induction fuel with
  | zero =>
    intro s hpos hfuel
    omega
  | succ fuel ih =>
    intro s hpos hfuel
    have hstep := iteration_icount_eq H hH prog s
    by_cases hnext : 0 < (iteration H prog s).m_icount
    · have hle : (iteration H prog s).m_icount.toNat ≤ fuel := by
        split at hstep <;> omega
      obtain ⟨k, tr, hrun, hlen, hlast, hfin⟩ := ih (iteration H prog s) hnext hle
      refine ⟨k + 1, selected prog s :: tr, ?_, ?_, ?_, ?_⟩
      · rw [execute_run_succ H prog fuel s hpos, hrun]
        rfl
      · simp only [List.length_cons, hlen]
      · exact hlast
      · exact hfin
    · have hdone : (iteration H prog s).m_icount ≤ 0 := by omega
      refine ⟨0, [selected prog s], ?_, rfl, hpos, hdone⟩
      rw [execute_run_succ H prog fuel s hpos,
        execute_run_done H prog fuel (iteration H prog s) hdone]
      rfl

/-- C14. Bounded overshoot: when handlers do not change the budget, then for
every positive budget `n`, every program store and any fuel of at least `n`,
`execute_run` returns, and the remaining budget is 0 or -1; it is -1 exactly
when the last pass started with one cycle remaining and fetched a two-word
opcode (`0x100 <= op < 0x140` or `0x150 <= op < 0x1b0`). The last pass starts
from the state reached after `k` passes, for some `k`. -/
theorem bounded_overshoot (H : Handlers)
    (hH : ∀ h t, (H h t).m_icount = t.m_icount) (prog : Program) (s : State)
    (hpos : 0 < s.m_icount) (fuel : Nat) (hfuel : s.m_icount.toNat ≤ fuel) :
    ∃ k tr,
      execute_run H prog fuel s =
        some (iteration H prog (Nat.iterate (iteration H prog) k s), tr) ∧
      tr.length = k + 1 ∧
      0 < (Nat.iterate (iteration H prog) k s).m_icount ∧
      ((iteration H prog (Nat.iterate (iteration H prog) k s)).m_icount = 0 ∨
       (iteration H prog (Nat.iterate (iteration H prog) k s)).m_icount = -1) ∧
      ((iteration H prog (Nat.iterate (iteration H prog) k s)).m_icount = -1 ↔
        (((0x100 ≤ opcode_at prog (Nat.iterate (iteration H prog) k s) ∧
            opcode_at prog (Nat.iterate (iteration H prog) k s) < 0x140) ∨
          (0x150 ≤ opcode_at prog (Nat.iterate (iteration H prog) k s) ∧
            opcode_at prog (Nat.iterate (iteration H prog) k s) < 0x1b0)) ∧
         (Nat.iterate (iteration H prog) k s).m_icount = 1)) := by
  obtain ⟨k, tr, hrun, hlen, hlast, hfin⟩ := execute_run_last_pass H hH prog fuel s hpos hfuel
  have hstep := iteration_icount_eq H hH prog (Nat.iterate (iteration H prog) k s)
  have hiff := two_word_iff (opcode_at prog (Nat.iterate (iteration H prog) k s))
  refine ⟨k, tr, hrun, hlen, hlast, ?_, ?_⟩
  · split at hstep <;> omega
  · rw [← hiff]
    constructor
    · intro hm
      split at hstep
      · next htw => exact ⟨htw, by omega⟩
      · omega
    · rintro ⟨htw, hone⟩
      rw [if_pos htw] at hstep
      omega

/-- C14 at budget 1, where the program store holds the two-word opcode `0x101`
everywhere and handlers do nothing. -/
theorem bounded_overshoot_witness :
    ∃ k tr,
      execute_run (fun _ t => t) (fun _ => 0x101) 1
          (startState 1 (fun _ => 0) ⟨0, 0, 0, 0, 0, 0, 0⟩) =
        some (iteration (fun _ t => t) (fun _ => 0x101)
          (Nat.iterate (iteration (fun _ t => t) (fun _ => 0x101)) k
            (startState 1 (fun _ => 0) ⟨0, 0, 0, 0, 0, 0, 0⟩)), tr) ∧
      tr.length = k + 1 ∧
      0 < (Nat.iterate (iteration (fun _ t => t) (fun _ => 0x101)) k
            (startState 1 (fun _ => 0) ⟨0, 0, 0, 0, 0, 0, 0⟩)).m_icount ∧
      ((iteration (fun _ t => t) (fun _ => 0x101)
          (Nat.iterate (iteration (fun _ t => t) (fun _ => 0x101)) k
            (startState 1 (fun _ => 0) ⟨0, 0, 0, 0, 0, 0, 0⟩))).m_icount = 0 ∨
       (iteration (fun _ t => t) (fun _ => 0x101)
          (Nat.iterate (iteration (fun _ t => t) (fun _ => 0x101)) k
            (startState 1 (fun _ => 0) ⟨0, 0, 0, 0, 0, 0, 0⟩))).m_icount = -1) :=
  (bounded_overshoot (fun _ t => t) (fun _ _ => rfl) (fun _ => 0x101)
    (startState 1 (fun _ => 0) ⟨0, 0, 0, 0, 0, 0, 0⟩) (by decide) 1 (by decide)).imp
    fun _ hk => hk.imp fun _ h => ⟨h.1, h.2.1, h.2.2.1, h.2.2.2.1⟩

end HMCS400
